import Mathlib

/-!
Verification of the runtime policy execution engine
(`src/engine/source/router/src/runtimePolicy.cpp`).

The development shallowly embeds the trace classifier (the two `std::regex`
patterns applied by `RuntimePolicy::listenAllTrace`), the lifecycle functions
`RuntimePolicy::build` and `RuntimePolicy::processEvent`, and the render
function `RuntimePolicy::getData`, and proves the specified properties about
them.
-/

namespace RuntimePolicyVerif

/-! ## Trace classifier

`listenAllTrace` applies two ECMAScript regexes to each incoming trace line:

* condition: `\[([^\]]+)\] \[condition\]:(.+)` via `std::regex_search`
  (no anchor: the pattern may match anywhere in the line);
* verbose:   `^\[([^\]]+)\] (.+)` via `std::regex_search`
  (the `^` anchors the match at the start of the line).

In ECMAScript mode `.` matches any character except the line terminators
LF, CR, U+2028, U+2029. -/

/-- ECMAScript line terminators, which `.` does not match. -/
def isLineTerm (c : Char) : Bool :=
  c = '\n' || c = '\r' || c = Char.ofNat 0x2028 || c = Char.ofNat 0x2029

/-- Consume the literal `p` from the front of `cs`, returning the remainder. -/
def stripPref : List Char → List Char → Option (List Char)
  | [], cs => some cs
  | _ :: _, [] => none
  | a :: ps, c :: cs => if c = a then stripPref ps cs else none

/-- The literal `] ` that both patterns require after the asset group. -/
def verboseTag : List Char := [']', ' ']

/-- The literal `[condition]:` that the condition pattern additionally
requires. -/
def condTailTag : List Char :=
  ['[', 'c', 'o', 'n', 'd', 'i', 't', 'i', 'o', 'n', ']', ':']

/-- The literal `] [condition]:` of the condition pattern. -/
def condTag : List Char := verboseTag ++ condTailTag

/-- Attempt to match `([^\]]+)\] \[condition\]:(.+)` against `rest` (the text
after an opening `[`); on success return (group 1, group 2).  Group 1 is the
maximal run of non-`]` characters (backtracking cannot produce any other
split because the run may not contain `]`), and group 2 is the maximal run of
non-line-terminator characters after the literal `] [condition]:`. -/
def condMatchCore (rest : List Char) : Option (String × String) :=
  if (rest.takeWhile (fun c => c != ']')).isEmpty then none
  else
    (stripPref condTag (rest.dropWhile (fun c => c != ']'))).bind fun rest2 =>
      if (rest2.takeWhile (fun c => !isLineTerm c)).isEmpty then none
      else some (⟨rest.takeWhile (fun c => c != ']')⟩,
        ⟨rest2.takeWhile (fun c => !isLineTerm c)⟩)

/-- Attempt to match `\[([^\]]+)\] \[condition\]:(.+)` starting exactly at
the head of `cs`. -/
def condMatchAt : List Char → Option (String × String)
  | [] => none
  | c0 :: rest => if c0 = '[' then condMatchCore rest else none

/-- Leftmost search: try `condMatchAt` at every position, left to right, as
`std::regex_search` does for an unanchored pattern. -/
def condSearchAux : List Char → Option (String × String)
  | [] => none
  | c :: cs =>
    match condMatchAt (c :: cs) with
    | some r => some r
    | none => condSearchAux cs

/-- Embedding of `std::regex_search(trace, match, regex("\[([^\]]+)\] \[condition\]:(.+)"))`. -/
def condSearch (s : String) : Option (String × String) :=
  condSearchAux s.data

/-- Attempt to match `([^\]]+)\] (.+)` against the text after an opening `[`;
on success return group 1 (the asset). -/
def verboseMatchCore (rest : List Char) : Option String :=
  if (rest.takeWhile (fun c => c != ']')).isEmpty then none
  else
    (stripPref verboseTag (rest.dropWhile (fun c => c != ']'))).bind fun rest2 =>
      if (rest2.takeWhile (fun c => !isLineTerm c)).isEmpty then none
      else some ⟨rest.takeWhile (fun c => c != ']')⟩

/-- Attempt to match `\[([^\]]+)\] (.+)` starting exactly at the head of
`cs`; on success return group 1 (the asset). -/
def verboseMatchAt : List Char → Option String
  | [] => none
  | c0 :: rest => if c0 = '[' then verboseMatchCore rest else none

/-- Embedding of `std::regex_search(trace, matchVerbose, regex("^\[([^\]]+)\] (.+)"))`:
the `^` anchor restricts the search to a match at position 0. -/
def verboseMatch (s : String) : Option String :=
  verboseMatchAt s.data

/-- Modelled from the spec: the condition regex of §4.1,
`^\[([^\]]+)\] \[condition\]:(.+)$`, anchored at the start of the line and,
through the final `$`, required to reach the end of the string with no line
terminator inside group 2.  This is the pattern the spec claims the code
uses; it is kept separate from `condSearch`, the embedding of what the code
actually does, so that the two can be compared. -/
def specCondCore (rest : List Char) : Option (String × String) :=
  if (rest.takeWhile (fun c => c != ']')).isEmpty then none
  else
    (stripPref condTag (rest.dropWhile (fun c => c != ']'))).bind fun rest2 =>
      if rest2.isEmpty || rest2.any isLineTerm then none
      else some (⟨rest.takeWhile (fun c => c != ']')⟩, ⟨rest2⟩)

/-- Modelled from the spec: the anchored condition match applied to a whole
character list. -/
def specCondAnchoredAt : List Char → Option (String × String)
  | [] => none
  | c0 :: rest => if c0 = '[' then specCondCore rest else none

/-- Modelled from the spec: the anchored condition regex applied to a
string. -/
def specCondAnchored (s : String) : Option (String × String) :=
  specCondAnchoredAt s.data

/-- Modelled from the spec: the verbose regex of §4.1,
`^\[([^\]]+)\] (.+)$`, anchored at both ends. -/
def specVerboseCore (rest : List Char) : Option String :=
  if (rest.takeWhile (fun c => c != ']')).isEmpty then none
  else
    (stripPref verboseTag (rest.dropWhile (fun c => c != ']'))).bind fun rest2 =>
      if rest2.isEmpty || rest2.any isLineTerm then none
      else some ⟨rest.takeWhile (fun c => c != ']')⟩

/-- Modelled from the spec: the anchored verbose match applied to a whole
character list. -/
def specVerboseAnchoredAt : List Char → Option String
  | [] => none
  | c0 :: rest => if c0 = '[' then specVerboseCore rest else none

/-- Modelled from the spec: the anchored verbose regex applied to a
string. -/
def specVerboseAnchored (s : String) : Option String :=
  specVerboseAnchoredAt s.data

/-! ## Runtime policy state -/

/-- Opaque event payload; the runtime policy never inspects it. -/
structure Event where
  payload : Nat
deriving DecidableEq

/-- State of one `RuntimePolicy` instance.

* `asset` is `m_asset`, the construction-time policy id;
* `built` models `m_spController` being non-null;
* `output` is `m_output`, the output latch;
* `history` is `m_history`, the ordered condition log;
* `traceBuffer` is `m_traceBuffer`, the per-asset verbose buffers
  (an association list keyed by asset name);
* `ingested` records the events handed to `m_spController->ingestEvent`;
* `outputWired` / `traceWired` record whether `subscribeToOutput` /
  `listenAllTrace` completed. -/
structure RPState where
  asset : String
  built : Bool
  output : String
  history : List (String × String)
  traceBuffer : List (String × List String)
  ingested : List Event
  outputWired : Bool
  traceWired : Bool
deriving DecidableEq

/-- Association-list lookup, modelling `std::map::find`. -/
def bufFind (buf : List (String × List String)) (k : String) : Option (List String) :=
  match buf with
  | [] => none
  | (k', v) :: rest => if k' = k then some v else bufFind rest k

/-- Replace the binding of `k` (or add it if absent), modelling assignment
through `std::map::operator[]`. -/
def bufSet (buf : List (String × List String)) (k : String) (v : List String) :
    List (String × List String) :=
  match buf with
  | [] => [(k, v)]
  | (k', v') :: rest => if k' = k then (k, v) :: rest else (k', v') :: bufSet rest k v

/-- Append one line to the bucket of `k`, default-constructing the bucket if
absent, modelling `m_traceBuffer[key].push_back(traceStream)`. -/
def bufAppend (buf : List (String × List String)) (k : String) (line : String) :
    List (String × List String) :=
  bufSet buf k ((bufFind buf k).getD [] ++ [line])

/-- The trace sink installed by `listenAllTrace`: run the condition search and,
on a match, append `(group1, group2)` to `m_history`; run the anchored verbose
match and, on a match, append the raw line to `m_traceBuffer[group1]`. -/
def onTrace (st : RPState) (line : String) : RPState :=
  let st1 :=
    match condSearch line with
    | some r => { st with history := st.history ++ [r] }
    | none => st
  match verboseMatch line with
  | some a => { st1 with traceBuffer := bufAppend st1.traceBuffer a line }
  | none => st1

/-! ## build / processEvent -/

/-- Exception behaviour of the collaborators during one `build` call: each
field is `some e` when the corresponding step throws an exception whose
flattened stack text is `e`. -/
structure BuildEnv where
  builderExc : Option String
  ctorExc : Option String
  subscribeOutputExc : Option String
  listenTraceExc : Option String
deriving DecidableEq

/-- The message produced by the catch block of `RuntimePolicy::build`:
`fmt::format("Error building policy [{}]: {}", m_asset, stack)`. -/
def buildErrMsg (id exc : String) : String :=
  "Error building policy [" ++ id ++ "]: " ++ exc

/-- Embedding of `RuntimePolicy::build`.  The already-built check tests
`m_spController`; `buildPolicy` and the `Controller` constructor run before
`m_spController` is assigned, while `subscribeToOutput` and `listenAllTrace`
run after, so an exception from the latter two leaves the controller
retained. -/
def build (st : RPState) (env : BuildEnv) : Option String × RPState :=
  if st.built then
    (some ("Policy '" ++ st.asset ++ "' is already built"), st)
  else
    match env.builderExc with
    | some e => (some (buildErrMsg st.asset e), st)
    | none =>
      match env.ctorExc with
      | some e => (some (buildErrMsg st.asset e), st)
      | none =>
        let st1 := { st with built := true }
        match env.subscribeOutputExc with
        | some e => (some (buildErrMsg st.asset e), st1)
        | none =>
          let st2 := { st1 with outputWired := true }
          match env.listenTraceExc with
          | some e => (some (buildErrMsg st.asset e), st2)
          | none => (none, { st2 with traceWired := true })

/-- Embedding of `RuntimePolicy::processEvent`: reject when `m_spController`
is null, otherwise wrap the event in a success result and hand it to the
controller. -/
def processEvent (st : RPState) (ev : Event) : Option String × RPState :=
  if !st.built then
    (some ("Policy '" ++ st.asset ++ "' is not built"), st)
  else
    (none, { st with ingested := st.ingested ++ [ev] })

/-! ## JSON values and pointer assignment

`getData` writes into a `json::Json` through
`trace.setString(value, "/" + asset)`.  `json::Json` is repository code that
is not under `src/`; it is modelled here from the spec (§4.5 and the design
notes): the pointer string is split on `/` into unescaped segments, missing
intermediate members are created as objects, an existing non-object value on
the path is replaced by an object, and the leaf is set to the string value
(new members are appended at the end of the object). -/

/-- Modelled from the spec: a JSON value as far as the render needs it —
strings and objects (an object is an ordered list of members). -/
inductive JVal where
  | s : String → JVal
  | o : List (String × JVal) → JVal

/-- First binding of `t` in an object's member list. -/
def lookupField : List (String × JVal) → String → Option JVal
  | [], _ => none
  | (k, w) :: rest, t => if k = t then some w else lookupField rest t

/-- Replace the binding of `t` in place, or append it at the end. -/
def replaceField : List (String × JVal) → String → JVal → List (String × JVal)
  | [], t, w => [(t, w)]
  | (k, u) :: rest, t, w => if k = t then (t, w) :: rest else (k, u) :: replaceField rest t w

/-- Modelled from the spec: set the string `v` at the pointer path `p`,
creating intermediate objects and replacing non-object intermediates. -/
def setPath : JVal → List String → String → JVal
  | _, [], v => .s v
  | .o fs, t :: ts, v => .o (replaceField fs t (setPath ((lookupField fs t).getD (.o [])) ts v))
  | .s _, t :: ts, v => .o [(t, setPath (.o []) ts v)]

/-- Value stored at the pointer path `p`, if any. -/
def getPath : JVal → List String → Option JVal
  | j, [] => some j
  | .s _, _ :: _ => none
  | .o fs, t :: ts =>
    match lookupField fs t with
    | some w => getPath w ts
    | none => none

/-- Pointer tokens of the path `"/" + asset`: the leading `/` is dropped and
the remainder is split on `/` with no escaping, per the spec's design note. -/
def ptrTokens (asset : String) : List String :=
  asset.splitOn "/"

mutual
/-- Modelled from the spec: serialization of a JSON value; the spec pins only
that the empty object prints as `{}`. -/
def prettyStr : JVal → String
  | .s v => "\"" ++ v ++ "\""
  | .o fs => "\x7b" ++ prettyFields fs ++ "\x7d"

/-- Serialization of an object's member list. -/
def prettyFields : List (String × JVal) → String
  | [] => ""
  | (k, w) :: rest =>
    "\"" ++ k ++ "\":" ++ prettyStr w ++ (if rest.isEmpty then "" else ",") ++ prettyFields rest
end

/-! ## Render (`RuntimePolicy::getData`) -/

/-- Insert a string into a sorted duplicate-free list, modelling insertion
into `std::set<std::string>` (lexicographic byte order; for valid UTF-8 the
byte order agrees with the code-point order used by `String` here). -/
def setInsert (s : String) : List String → List String
  | [] => [s]
  | t :: rest =>
    if s = t then t :: rest
    else if s < t then s :: t :: rest
    else t :: setInsert s rest

/-- Contents of the `std::set<std::string> uniqueTraces` after inserting every
line of `l`: the distinct lines of `l` in lexicographic order. -/
def uniqueSorted (l : List String) : List String :=
  l.foldl (fun acc s => setInsert s acc) []

/-- One iteration of the history loop in `getData` under
`OUTPUT_AND_TRACES_WITH_DETAILS`: if the asset has a bucket, set
`trace["/" + asset]` to the concatenation of the deduplicated, sorted bucket
contents and clear the bucket (the map key remains, bound to an empty
vector). -/
def detailsStep (acc : JVal × List (String × List String)) (rec : String × String) :
    JVal × List (String × List String) :=
  match bufFind acc.2 rec.1 with
  | some vec =>
    (setPath acc.1 (ptrTokens rec.1) (String.join (uniqueSorted vec)),
     bufSet acc.2 rec.1 [])
  | none => acc

/-- Modelled from the spec: the debug mode enumeration (the enum's header is
not under `src/`; values and order are §6's). -/
inductive DebugMode where
  | OUTPUT_ONLY
  | OUTPUT_AND_TRACES
  | OUTPUT_AND_TRACES_WITH_DETAILS
deriving DecidableEq

/-- One iteration of the history loop in `getData`.  Under
`OUTPUT_AND_TRACES` the condition payload is written at `"/" + asset`
(last write wins); under `OUTPUT_ONLY` the loop body has no effect. -/
def renderStep : DebugMode → (JVal × List (String × List String)) → (String × String) →
    JVal × List (String × List String)
  | .OUTPUT_ONLY, acc, _ => acc
  | .OUTPUT_AND_TRACES, acc, rec => (setPath acc.1 (ptrTokens rec.1) rec.2, acc.2)
  | .OUTPUT_AND_TRACES_WITH_DETAILS, acc, rec => detailsStep acc rec

/-- Embedding of `RuntimePolicy::getData`: fold the history loop over the
initial empty trace object and the current buffers, clear the history, and
return the latched output together with the serialized trace. -/
def getData (st : RPState) (mode : DebugMode) : (String × String) × RPState :=
  let acc := st.history.foldl (renderStep mode) (JVal.o [], st.traceBuffer)
  ((st.output, prettyStr acc.1),
   { st with history := [], traceBuffer := acc.2 })

/-- The trace JSON value built by a render, before serialization. -/
def renderedTrace (st : RPState) (mode : DebugMode) : JVal :=
  (st.history.foldl (renderStep mode) (JVal.o [], st.traceBuffer)).1

/-! ## Lock model

Mutex acquisitions performed by each function body, read off the source:
`subscribeToOutput`'s callback holds `m_outputMutex`, `listenAllTrace`'s
callback holds `m_tracerMutex`, and `getData` contains no `lock_guard` at
all. -/

/-- The two mutexes of a `RuntimePolicy`. -/
inductive MutexId where
  | outputMutex
  | tracerMutex
deriving DecidableEq

/-- Mutexes acquired by the body of `getData`, in order: none. -/
def getDataLockAcquisitions : List MutexId := []

/-- Mutexes acquired by the output subscriber callback, in order. -/
def outputSubscriberLockAcquisitions : List MutexId := [.outputMutex]

/-- Mutexes acquired by the trace sink callback, in order. -/
def traceSinkLockAcquisitions : List MutexId := [.tracerMutex]

/-! ## Helper lemmas -/

/-- The unanchored search succeeds exactly when the pattern matches at some
position of the character list. -/
lemma condSearchAux_isSome_iff (cs : List Char) :
    (condSearchAux cs).isSome ↔ ∃ i, (condMatchAt (cs.drop i)).isSome := by
  induction cs with
  | nil =>
    simp [condSearchAux, condMatchAt]
  | cons c cs ih =>
    rcases h : condMatchAt (c :: cs) with _ | r
    · have : condSearchAux (c :: cs) = condSearchAux cs := by
        simp [condSearchAux, h]
      rw [this, ih]
      constructor
      · rintro ⟨i, hi⟩; exact ⟨i + 1, by simpa using hi⟩
      · rintro ⟨i, hi⟩
        cases i with
        | zero => simp [h] at hi
        | succ j => exact ⟨j, by simpa using hi⟩
    · constructor
      · intro _; exact ⟨0, by simp [h]⟩
      · intro _; simp [condSearchAux, h]

/-- Looking up the key just set. -/
lemma bufFind_bufSet_self (buf : List (String × List String)) (k : String) (v : List String) :
    bufFind (bufSet buf k v) k = some v := by
  induction buf with
  | nil => simp [bufSet, bufFind]
  | cons kv rest ih =>
    obtain ⟨k', v'⟩ := kv
    by_cases hk : k' = k
    · subst hk; simp [bufSet, bufFind]
    · simp [bufSet, bufFind, hk, ih]

/-- Setting one key leaves every other key's binding unchanged. -/
lemma bufFind_bufSet_ne (buf : List (String × List String)) (k a : String) (v : List String)
    (h : k ≠ a) : bufFind (bufSet buf k v) a = bufFind buf a := by
  induction buf with
  | nil => simp [bufSet, bufFind, h]
  | cons kv rest ih =>
    obtain ⟨k', v'⟩ := kv
    by_cases hk : k' = k
    · subst hk; simp [bufSet, bufFind, h]
    · simp [bufSet, bufFind, hk, ih]

/-- Looking up the field just replaced. -/
lemma lookupField_replaceField_self (fs : List (String × JVal)) (t : String) (w : JVal) :
    lookupField (replaceField fs t w) t = some w := by
  induction fs with
  | nil => simp [replaceField, lookupField]
  | cons kv rest ih =>
    obtain ⟨k, u⟩ := kv
    by_cases hk : k = t
    · subst hk; simp [replaceField, lookupField]
    · simp [replaceField, lookupField, hk, ih]

/-- Replacing one field leaves every other field's binding unchanged. -/
lemma lookupField_replaceField_ne (fs : List (String × JVal)) (t t' : String) (w : JVal)
    (h : t' ≠ t) : lookupField (replaceField fs t w) t' = lookupField fs t' := by
  induction fs with
  | nil =>
    have ht : ¬ t = t' := fun hh => h hh.symm
    simp [replaceField, lookupField, ht]
  | cons kv rest ih =>
    obtain ⟨k, u⟩ := kv
    by_cases hk : k = t
    · subst hk
      have hkt : ¬ k = t' := fun hh => h hh.symm
      simp [replaceField, lookupField, hkt]
    · simp [replaceField, lookupField, hk, ih]

/-- Reading back a pointer path that was just written. -/
lemma getPath_setPath_self (p : List String) : ∀ (j : JVal) (v : String),
    getPath (setPath j p v) p = some (.s v) := by
  induction p with
  | nil => intro j v; cases j <;> simp [setPath, getPath]
  | cons t ts ih =>
    intro j v
    cases j with
    | s w => simp [setPath, getPath, lookupField, ih]
    | o fs => simp [setPath, getPath, lookupField_replaceField_self, ih]

/-- Boolean path-order test: `isPathPref p q = true` when `p` is an initial
segment of `q`. -/
def isPathPref : List String → List String → Bool
  | [], _ => true
  | _ :: _, [] => false
  | a :: as, b :: bs => a == b && isPathPref as bs

/-- Writing at a pointer path `q` that neither extends nor is extended by `p`
leaves the value at `p` unchanged. -/
lemma getPath_setPath_of_ne (q : List String) : ∀ (p : List String) (j : JVal) (v : String),
    isPathPref p q = false → isPathPref q p = false →
    getPath (setPath j q v) p = getPath j p := by
  induction q with
  | nil =>
    intro p j v _ h2
    simp [isPathPref] at h2
  | cons t' qs ih =>
    intro p j v h1 h2
    cases p with
    | nil => simp [isPathPref] at h1
    | cons t ts =>
      by_cases ht : t = t'
      · subst ht
        have h1' : isPathPref ts qs = false := by simpa [isPathPref] using h1
        have h2' : isPathPref qs ts = false := by simpa [isPathPref] using h2
        have hts : ts ≠ [] := by
          intro hnil; subst hnil; simp [isPathPref] at h1'
        cases j with
        | s w =>
          cases ts with
          | nil => exact absurd rfl hts
          | cons u us =>
            simp [setPath, getPath, lookupField, ih _ _ _ h1' h2']
        | o fs =>
          rcases hlk : lookupField fs t with _ | w
          · cases ts with
            | nil => exact absurd rfl hts
            | cons u us =>
              simp [setPath, getPath, hlk, lookupField_replaceField_self,
                ih _ _ _ h1' h2', lookupField]
          · simp [setPath, getPath, hlk, lookupField_replaceField_self, ih _ _ _ h1' h2']
      · cases j with
        | s w =>
          have ht2 : ¬ t' = t := fun hh => ht hh.symm
          simp [setPath, getPath, lookupField, ht2]
        | o fs =>
          have hne := lookupField_replaceField_ne fs t' t
            (setPath ((lookupField fs t').getD (.o [])) qs v) ht
          simp [setPath, getPath, hne]

/-- The detailed-mode branch of `renderStep` is `detailsStep`. -/
lemma renderStep_details :
    renderStep DebugMode.OUTPUT_AND_TRACES_WITH_DETAILS = detailsStep := by
  funext acc rec
  rfl

/-- Folding detail steps over records whose assets differ from `a` and whose
pointer paths neither extend nor are extended by `a`'s leaves both the value
at `a`'s path and `a`'s bucket unchanged. -/
lemma fold_details_preserve (a : String) (l : List (String × String)) :
    ∀ acc : JVal × List (String × List String),
    (∀ r ∈ l, r.1 ≠ a ∧ isPathPref (ptrTokens r.1) (ptrTokens a) = false ∧
      isPathPref (ptrTokens a) (ptrTokens r.1) = false) →
    getPath (l.foldl detailsStep acc).1 (ptrTokens a) = getPath acc.1 (ptrTokens a) ∧
    bufFind (l.foldl detailsStep acc).2 a = bufFind acc.2 a := by
  induction l with
  | nil => intro acc _; exact ⟨rfl, rfl⟩
  | cons r rest ih =>
    intro acc hl
    obtain ⟨hne, hp1, hp2⟩ := hl r (List.mem_cons_self r rest)
    have hrest := fun x hx => hl x (List.mem_cons_of_mem r hx)
    have hstep :
        getPath (detailsStep acc r).1 (ptrTokens a) = getPath acc.1 (ptrTokens a) ∧
        bufFind (detailsStep acc r).2 a = bufFind acc.2 a := by
      rcases hb : bufFind acc.2 r.1 with _ | vec
      · simp [detailsStep, hb]
      · constructor
        · simp only [detailsStep, hb]
          exact getPath_setPath_of_ne _ _ _ _ hp2 hp1
        · simp only [detailsStep, hb]
          exact bufFind_bufSet_ne _ _ _ _ hne
    have := ih (detailsStep acc r) hrest
    rw [List.foldl_cons]
    exact ⟨this.1.trans hstep.1, this.2.trans hstep.2⟩

/-- Once `a`'s bucket is empty, folding detail steps over a segment that
still mentions `a` (and otherwise does not interfere with `a`'s path) ends
with the value at `a`'s path equal to the empty string and the bucket still
empty. -/
lemma fold_details_empties (a : String) (l : List (String × String)) :
    ∀ acc : JVal × List (String × List String),
    (∃ r ∈ l, r.1 = a) →
    bufFind acc.2 a = some [] →
    (∀ r ∈ l, r.1 ≠ a → isPathPref (ptrTokens r.1) (ptrTokens a) = false ∧
      isPathPref (ptrTokens a) (ptrTokens r.1) = false) →
    getPath (l.foldl detailsStep acc).1 (ptrTokens a) = some (.s "") ∧
    bufFind (l.foldl detailsStep acc).2 a = some [] := by
  induction l with
  | nil => rintro acc ⟨r, hr, _⟩ _ _; exact absurd hr (List.not_mem_nil r)
  | cons r rest ih =>
    intro acc hocc hbuf hnoint
    have hrest := fun x hx => hnoint x (List.mem_cons_of_mem r hx)
    rw [List.foldl_cons]
    by_cases hra : r.1 = a
    · -- this step writes the empty concatenation at a's path and keeps the
      -- bucket empty
      have hstep1 : (detailsStep acc r).1 = setPath acc.1 (ptrTokens a) "" := by
        simp [detailsStep, hra, hbuf, uniqueSorted, String.join]
      have hstep2 : bufFind (detailsStep acc r).2 a = some [] := by
        rw [show (detailsStep acc r).2 = bufSet acc.2 a [] by
          simp [detailsStep, hra, hbuf]]
        exact bufFind_bufSet_self _ _ _
      by_cases hocc' : ∃ x ∈ rest, x.1 = a
      · exact ih (detailsStep acc r) hocc' hstep2 hrest
      · have hclean : ∀ x ∈ rest, x.1 ≠ a ∧
            isPathPref (ptrTokens x.1) (ptrTokens a) = false ∧
            isPathPref (ptrTokens a) (ptrTokens x.1) = false := by
          intro x hx
          have hxa : x.1 ≠ a := fun hxa => hocc' ⟨x, hx, hxa⟩
          exact ⟨hxa, (hrest x hx hxa).1, (hrest x hx hxa).2⟩
        have hpres := fold_details_preserve a rest (detailsStep acc r) hclean
        refine ⟨?_, hpres.2.trans hstep2⟩
        rw [hpres.1, hstep1]
        exact getPath_setPath_self _ _ _
    · -- this step concerns a different asset
      have hstep2 : bufFind (detailsStep acc r).2 a = bufFind acc.2 a := by
        rcases hb : bufFind acc.2 r.1 with _ | vec
        · simp [detailsStep, hb]
        · simp only [detailsStep, hb]
          exact bufFind_bufSet_ne _ _ _ _ hra
      have hocc' : ∃ x ∈ rest, x.1 = a := by
        obtain ⟨x, hx, hxa⟩ := hocc
        rcases List.mem_cons.mp hx with hx0 | hx1
        · exact absurd (hx0 ▸ hxa) hra
        · exact ⟨x, hx1, hxa⟩
      exact ih (detailsStep acc r) hocc' (hstep2.trans hbuf) hrest

/-- Membership in `setInsert`. -/
lemma setInsert_mem (s x : String) (l : List String) :
    x ∈ setInsert s l ↔ x = s ∨ x ∈ l := by
  induction l with
  | nil => simp [setInsert]
  | cons t rest ih =>
    by_cases hst : s = t
    · subst hst; simp [setInsert]
    · by_cases hlt : s < t
      · simp [setInsert, hst, hlt]
      · simp [setInsert, hst, hlt, ih]
        tauto

/-- `setInsert` preserves strict sortedness. -/
lemma setInsert_pairwise (s : String) (l : List String)
    (h : l.Pairwise (· < ·)) : (setInsert s l).Pairwise (· < ·) := by
  induction l with
  | nil => simp [setInsert]
  | cons t rest ih =>
    rcases List.pairwise_cons.mp h with ⟨ht, hrest⟩
    by_cases hst : s = t
    · subst hst; simpa [setInsert] using h
    · by_cases hlt : s < t
      · rw [show setInsert s (t :: rest) = s :: t :: rest from by simp [setInsert, hst, hlt]]
        refine List.pairwise_cons.mpr ⟨?_, h⟩
        intro b hb
        rcases List.mem_cons.mp hb with hb0 | hb1
        · exact hb0 ▸ hlt
        · exact lt_trans hlt (ht b hb1)
      · have hts : t < s := lt_of_le_of_ne (not_lt.mp hlt) (fun hh => hst hh.symm)
        rw [show setInsert s (t :: rest) = t :: setInsert s rest from by
          simp [setInsert, hst, hlt]]
        refine List.pairwise_cons.mpr ⟨?_, ih hrest⟩
        intro b hb
        rcases (setInsert_mem s b rest).mp hb with hb0 | hb1
        · exact hb0 ▸ hts
        · exact ht b hb1

/-- The `std::set` contents are strictly sorted (hence duplicate-free). -/
lemma uniqueSorted_pairwise (l : List String) : (uniqueSorted l).Pairwise (· < ·) := by
  have key : ∀ (l : List String) (acc : List String), acc.Pairwise (· < ·) →
      (l.foldl (fun acc s => setInsert s acc) acc).Pairwise (· < ·) := by
    intro l
    induction l with
    | nil => intro acc h; exact h
    | cons s rest ih => intro acc h; exact ih (setInsert s acc) (setInsert_pairwise s acc h)
  exact key l [] (by simp)

/-- The `std::set` contents are exactly the lines inserted. -/
lemma uniqueSorted_mem (l : List String) (x : String) :
    x ∈ uniqueSorted l ↔ x ∈ l := by
  have key : ∀ (l : List String) (acc : List String),
      x ∈ l.foldl (fun acc s => setInsert s acc) acc ↔ x ∈ acc ∨ x ∈ l := by
    intro l
    induction l with
    | nil => intro acc; simp
    | cons s rest ih =>
      intro acc
      rw [List.foldl_cons, ih (setInsert s acc), setInsert_mem]
      constructor
      · rintro ((h | h) | h) <;> simp [h]
      · intro h
        rcases h with h | h
        · exact Or.inl (Or.inr h)
        · rcases List.mem_cons.mp h with h0 | h1
          · exact Or.inl (Or.inl h0)
          · exact Or.inr h1
  simpa using key l []

/-- Decomposition of a list at the first element satisfying `p`. -/
lemma exists_first_occ {α : Type} (p : α → Bool) (l : List α) (h : l.filter p ≠ []) :
    ∃ x l1 l2, l = l1 ++ x :: l2 ∧ p x = true ∧ (∀ y ∈ l1, p y = false) ∧
      l.filter p = x :: l2.filter p := by
  induction l with
  | nil => exact absurd rfl h
  | cons z rest ih =>
    rcases hz : p z with _ | _
    · have hrest : rest.filter p ≠ [] := by
        intro hr; exact h (by simp [List.filter_cons, hz, hr])
      obtain ⟨x, l1, l2, hdec, hpx, hl1, hfil⟩ := ih hrest
      exact ⟨x, z :: l1, l2, by simp [hdec], hpx,
        fun y hy => by
          rcases List.mem_cons.mp hy with hy0 | hy1
          · exact hy0 ▸ hz
          · exact hl1 y hy1,
        by simp [List.filter_cons, hz, hfil]⟩
    · exact ⟨z, [], rest, by simp, hz, by simp, by simp [List.filter_cons, hz]⟩

/-- A built instance with empty buffers, for concrete instantiations. -/
def mkBuilt (id : String) : RPState :=
  ⟨id, true, "", [], [], [], true, true⟩

/-- A freshly constructed (unbuilt) instance, for concrete instantiations. -/
def mkUnbuilt (id : String) : RPState :=
  ⟨id, false, "", [], [], [], false, false⟩

/-- The trace buffer left by a render is the one produced by the history
fold. -/
lemma getData_traceBuffer (st : RPState) (m : DebugMode) :
    ((getData st m).2).traceBuffer =
      (st.history.foldl (renderStep m) (JVal.o [], st.traceBuffer)).2 := rfl

/-- If consuming the literal `p` succeeds, the input was `p` followed by the
remainder. -/
lemma stripPref_eq (p : List Char) : ∀ (cs rest : List Char),
    stripPref p cs = some rest → cs = p ++ rest := by
  induction p with
  | nil => intro cs rest h; simpa [stripPref] using Option.some.inj h
  | cons a ps ih =>
    intro cs rest h
    cases cs with
    | nil => simp [stripPref] at h
    | cons c cs' =>
      by_cases hca : c = a
      · subst hca
        rw [stripPref, if_pos rfl] at h
        simpa using ih cs' rest h
      · rw [stripPref, if_neg hca] at h; simp at h

/-- Consuming a literal from itself followed by a remainder succeeds. -/
lemma stripPref_append (p : List Char) : ∀ rest, stripPref p (p ++ rest) = some rest := by
  induction p with
  | nil => intro rest; simp [stripPref]
  | cons a ps ih => intro rest; simp [stripPref, ih]

/-- A successful anchored condition match per the spec's regex is also found
by the code's condition match at position 0, and its line also passes the
code's anchored verbose match with the same asset. -/
lemma specCondCore_to_code (rest : List Char) (a p : String)
    (h : specCondCore rest = some (a, p)) :
    condMatchCore rest = some (a, p) ∧ verboseMatchCore rest = some a := by
  unfold specCondCore at h
  by_cases hg1 : (rest.takeWhile (fun c => c != ']')).isEmpty
  · rw [if_pos hg1] at h; simp at h
  · rw [if_neg hg1] at h
    rcases hsp : stripPref condTag (rest.dropWhile (fun c => c != ']')) with _ | rest2
    · rw [hsp] at h; simp at h
    · rw [hsp, Option.some_bind] at h
      by_cases hr2 : (rest2.isEmpty || rest2.any isLineTerm) = true
      · rw [if_pos hr2] at h; simp at h
      · rw [if_neg hr2] at h
        rw [Bool.or_eq_true] at hr2
        have hne : rest2.isEmpty = false :=
          Bool.eq_false_iff.mpr fun hh => hr2 (Or.inl hh)
        have hterm : rest2.any isLineTerm = false :=
          Bool.eq_false_iff.mpr fun hh => hr2 (Or.inr hh)
        have htk : rest2.takeWhile (fun c => !isLineTerm c) = rest2 := by
          rw [List.takeWhile_eq_self_iff]
          intro c hc
          simpa using List.any_eq_false.mp hterm c hc
        have hga : (⟨rest.takeWhile (fun c => c != ']')⟩ : String) = a :=
          congrArg Prod.fst (Option.some.inj h)
        constructor
        · unfold condMatchCore
          rw [if_neg hg1, hsp, Option.some_bind, htk,
            if_neg (by rw [hne]; exact Bool.false_ne_true)]
          exact h
        · unfold verboseMatchCore
          have hiv : ((condTailTag ++ rest2).takeWhile (fun c => !isLineTerm c)).isEmpty
              = false := by
            rw [show condTailTag ++ rest2 = '[' :: (condTailTag.tail ++ rest2) from rfl]
            simp [List.takeWhile_cons, isLineTerm]
          rw [if_neg hg1, stripPref_eq condTag _ rest2 hsp,
            show condTag = verboseTag ++ condTailTag from rfl, List.append_assoc,
            stripPref_append, Option.some_bind,
            if_neg (by rw [hiv]; exact Bool.false_ne_true), hga]

/-- Lifting `specCondCore_to_code` to whole lines. -/
lemma specCond_to_code (L a p : String) (h : specCondAnchored L = some (a, p)) :
    condMatchAt L.data = some (a, p) ∧ verboseMatchAt L.data = some a := by
  unfold specCondAnchored at h
  cases hL : L.data with
  | nil => rw [hL] at h; simp [specCondAnchoredAt] at h
  | cons c0 rest =>
    rw [hL] at h
    by_cases hc0 : c0 = '['
    · subst hc0
      rw [specCondAnchoredAt, if_pos rfl] at h
      have := specCondCore_to_code rest a p h
      rw [condMatchAt, if_pos rfl, verboseMatchAt, if_pos rfl]
      exact this
    · rw [specCondAnchoredAt, if_neg hc0] at h; simp at h


/-! ## Claims -/

/-- C1 counterexample: the line `x[a] [condition]:p` does not match the
anchored condition regex of the spec (it does not start with `[`), yet the
trace sink appends a Condition record for it, because the code runs the
condition pattern through an unanchored `std::regex_search`.  This refutes
the claim that a line with a condition-shaped substring only in its interior
produces no Condition record. -/
theorem C1_counterexample :
    specCondAnchored "x[a] [condition]:p" = none ∧
    (onTrace (mkBuilt "pol") "x[a] [condition]:p").history = [("a", "p")] := by
  constructor
  · decide
  · decide

/-- C1 (amended): a Condition record with asset = group 1 and payload =
group 2 is appended to history if and only if the condition pattern matches
at SOME position of the line (the search is unanchored), the groups being
those of the leftmost match. -/
theorem C1_condition_records (st : RPState) (L : String) :
    (onTrace st L).history = st.history ++ (condSearch L).toList ∧
    ((condSearch L).isSome ↔ ∃ i, (condMatchAt (L.data.drop i)).isSome) := by
  constructor
  · rcases hc : condSearch L with _ | r <;> rcases hv : verboseMatch L with _ | a <;>
      simp [onTrace, hc, hv]
  · exact condSearchAux_isSome_iff L.data

/-- C2 counterexample: the line `y[b] [condition]:q` matches neither of the
spec's two anchored patterns, yet it is appended to history (and to neither
verbose bucket), refuting the claim that a line matching neither pattern is
appended to neither buffer. -/
theorem C2_counterexample :
    specCondAnchored "y[b] [condition]:q" = none ∧
    specVerboseAnchored "y[b] [condition]:q" = none ∧
    (onTrace (mkBuilt "pol2") "y[b] [condition]:q").history = [("b", "q")] ∧
    (onTrace (mkBuilt "pol2") "y[b] [condition]:q").traceBuffer = [] := by
  refine ⟨by decide, by decide, by decide, by decide⟩

/-- C2 (amended): a line matching the spec's anchored condition pattern
produces both records — a Condition entry appended to history and the entire
raw line appended to the asset's verbose bucket — and a line matched by
neither of the code's patterns leaves the state unchanged; but since the
code's condition search is unanchored, a line with an interior condition
match is appended to history while skipping the verbose buffer. -/
theorem C2_both_records (st : RPState) (L : String) :
    (∀ a p, specCondAnchored L = some (a, p) →
      (onTrace st L).history = st.history ++ [(a, p)] ∧
      bufFind (onTrace st L).traceBuffer a =
        some ((bufFind st.traceBuffer a).getD [] ++ [L])) ∧
    (condSearch L = none → verboseMatch L = none → onTrace st L = st) := by
  constructor
  · intro a p hspec
    obtain ⟨hcond, hverb⟩ := specCond_to_code L a p hspec
    have hc : condSearch L = some (a, p) := by
      unfold condSearch
      cases hL : L.data with
      | nil => rw [hL] at hcond; simp [condMatchAt] at hcond
      | cons c cs =>
        rw [hL] at hcond
        simp [condSearchAux, hcond]
    have hv : verboseMatch L = some a := hverb
    constructor
    · simp [onTrace, hc, hv]
    · simp only [onTrace, hc, hv]
      simp [bufAppend, bufFind_bufSet_self]
  · intro hc hv
    simp [onTrace, hc, hv]

/-- C2 witness: the amended claim evaluated on the anchored condition line
`[b] [condition]:q` and on the non-matching line `not a trace`. -/
theorem C2_both_records_witness :
    (onTrace (mkBuilt "w2") "[b] [condition]:q").history = [("b", "q")] ∧
    bufFind (onTrace (mkBuilt "w2") "[b] [condition]:q").traceBuffer "b" =
      some ["[b] [condition]:q"] ∧
    onTrace (mkBuilt "w2") "not a trace" = mkBuilt "w2" := by
  have h1 := (C2_both_records (mkBuilt "w2") "[b] [condition]:q").1 "b" "q" (by decide)
  have h2 := (C2_both_records (mkBuilt "w2") "not a trace").2 (by decide) (by decide)
  refine ⟨?_, ?_, h2⟩
  · rw [h1.1]; decide
  · rw [h1.2]; decide

/-- C3 counterexample: when `buildPolicy` and the controller constructor
succeed but `subscribeToOutput` throws, `build` returns the build-failure
error, yet the controller assigned just before the throw is retained: the
instance is BUILT and a subsequent ingest succeeds instead of failing with
the not-built error.  This refutes the claim that any exception during build
leaves the instance UNBUILT. -/
theorem C3_counterexample :
    (build (mkUnbuilt "p1") ⟨none, none, some "boom", none⟩).1 =
      some "Error building policy [p1]: boom" ∧
    (build (mkUnbuilt "p1") ⟨none, none, some "boom", none⟩).2.built = true ∧
    (processEvent (build (mkUnbuilt "p1") ⟨none, none, some "boom", none⟩).2 ⟨0⟩).1 =
      none := by
  refine ⟨by decide, by decide, by decide⟩

/-- C3 (amended): an exception from the builder or from controller
construction makes `build` return the message
`Error building policy [<id>]: <stack>` with the state unchanged (hence
UNBUILT, nothing wired); an exception from subscriber wiring returns the same
message but leaves the controller retained, so the instance is BUILT. -/
theorem C3_build_exceptions (st : RPState) (env : BuildEnv) (h : st.built = false) :
    (∀ e, env.builderExc = some e →
      build st env = (some (buildErrMsg st.asset e), st)) ∧
    (∀ e, env.builderExc = none → env.ctorExc = some e →
      build st env = (some (buildErrMsg st.asset e), st)) ∧
    (∀ e, env.builderExc = none → env.ctorExc = none →
      env.subscribeOutputExc = some e →
      (build st env).1 = some (buildErrMsg st.asset e) ∧
      (build st env).2.built = true) ∧
    (∀ e, env.builderExc = none → env.ctorExc = none →
      env.subscribeOutputExc = none → env.listenTraceExc = some e →
      (build st env).1 = some (buildErrMsg st.asset e) ∧
      (build st env).2.built = true) := by
  refine ⟨?_, ?_, ?_, ?_⟩
  · intro e he; simp [build, h, he]
  · intro e hb he; simp [build, h, hb, he]
  · intro e hb hc he; simp [build, h, hb, hc, he]
  · intro e hb hc hs he; simp [build, h, hb, hc, hs, he]

/-- C3 witness: the four exception points exercised on a fresh instance. -/
theorem C3_build_exceptions_witness :
    build (mkUnbuilt "w3") ⟨some "b1", none, none, none⟩ =
      (some (buildErrMsg "w3" "b1"), mkUnbuilt "w3") ∧
    build (mkUnbuilt "w3") ⟨none, some "c1", none, none⟩ =
      (some (buildErrMsg "w3" "c1"), mkUnbuilt "w3") ∧
    (build (mkUnbuilt "w3") ⟨none, none, some "s1", none⟩).2.built = true ∧
    (build (mkUnbuilt "w3") ⟨none, none, none, some "t1"⟩).2.built = true := by
  have h1 := (C3_build_exceptions (mkUnbuilt "w3") ⟨some "b1", none, none, none⟩ rfl).1
    "b1" rfl
  have h2 := ((C3_build_exceptions (mkUnbuilt "w3") ⟨none, some "c1", none, none⟩ rfl).2).1
    "c1" rfl rfl
  have h3 := (((C3_build_exceptions (mkUnbuilt "w3") ⟨none, none, some "s1", none⟩
    rfl).2).2).1 "s1" rfl rfl rfl
  have h4 := (((C3_build_exceptions (mkUnbuilt "w3") ⟨none, none, none, some "t1"⟩
    rfl).2).2).2 "t1" rfl rfl rfl rfl
  exact ⟨h1, h2, h3.2, h4.2⟩

/-- C4 counterexample: on a built instance, `build` returns the message
`Policy 'p4' is already built` — with a capital `P` — which is not the exact
message `policy 'p4' is already built` the claim states. -/
theorem C4_counterexample :
    (build (mkBuilt "p4") ⟨none, none, none, none⟩).1 =
      some "Policy 'p4' is already built" ∧
    some "Policy 'p4' is already built" ≠ some "policy 'p4' is already built" := by
  refine ⟨by decide, by decide⟩

/-- C4 (amended): on a BUILT instance, `build` returns exactly
`Policy '<id>' is already built` (capitalized as in the code), the state is
returned unchanged — so the instance stays BUILT with its pipeline intact —
and ingest still succeeds. -/
theorem C4_already_built (st : RPState) (env : BuildEnv) (h : st.built = true) :
    build st env = (some ("Policy '" ++ st.asset ++ "' is already built"), st) ∧
    ∀ ev, (processEvent st ev).1 = none := by
  constructor
  · simp [build, h]
  · intro ev; simp [processEvent, h]

/-- C4 witness: the second `build` on a built instance. -/
theorem C4_already_built_witness :
    build (mkBuilt "w4") ⟨none, none, none, none⟩ =
      (some ("Policy '" ++ "w4" ++ "' is already built"), mkBuilt "w4") ∧
    (processEvent (mkBuilt "w4") ⟨0⟩).1 = none := by
  have h := C4_already_built (mkBuilt "w4") ⟨none, none, none, none⟩ rfl
  exact ⟨h.1, h.2 ⟨0⟩⟩

/-- C5 counterexample: on an unbuilt instance, `processEvent` returns the
message `Policy 'p5' is not built` — with a capital `P` — which is not the
exact message `policy 'p5' is not built` the claim states. -/
theorem C5_counterexample :
    (processEvent (mkUnbuilt "p5") ⟨1⟩).1 = some "Policy 'p5' is not built" ∧
    (processEvent (mkUnbuilt "p5") ⟨1⟩).2 = mkUnbuilt "p5" ∧
    some "Policy 'p5' is not built" ≠ some "policy 'p5' is not built" := by
  refine ⟨by decide, by decide, by decide⟩

/-- C5 (amended): on an UNBUILT instance, `processEvent` returns exactly
`Policy '<id>' is not built` (capitalized as in the code) and the state is
returned unchanged, so nothing is handed to a controller and no pipeline
state is created. -/
theorem C5_not_built (st : RPState) (ev : Event) (h : st.built = false) :
    processEvent st ev = (some ("Policy '" ++ st.asset ++ "' is not built"), st) := by
  simp [processEvent, h]

/-- C5 witness: ingest on a freshly constructed instance. -/
theorem C5_not_built_witness :
    processEvent (mkUnbuilt "w5") ⟨7⟩ =
      (some ("Policy '" ++ "w5" ++ "' is not built"), mkUnbuilt "w5") :=
  C5_not_built (mkUnbuilt "w5") ⟨7⟩ rfl

/-- C6 (confirmed): for every buffer state and every debug mode — including
`OUTPUT_ONLY` — the history of condition records is empty once `getData`
returns. -/
theorem C6_history_cleared (st : RPState) (m : DebugMode) :
    ((getData st m).2).history = [] := rfl

/-- C9 counterexample: the body of `getData` performs no lock acquisition at
all, refuting the claim that every render acquires the output-latch mutex and
then the trace-buffer mutex. -/
theorem C9_counterexample :
    getDataLockAcquisitions ≠ [MutexId.outputMutex, MutexId.tracerMutex] ∧
    MutexId.outputMutex ∉ getDataLockAcquisitions ∧
    MutexId.tracerMutex ∉ getDataLockAcquisitions := by
  refine ⟨by decide, by decide, by decide⟩

/-- C9 (amended): `getData` acquires no mutex; only the subscriber callbacks
lock — the output subscriber the output-latch mutex and the trace sink the
trace-buffer mutex — so the render reads the output string and the trace
buffers without synchronization and no tear-freedom is established by
locking. -/
theorem C9_render_locks :
    getDataLockAcquisitions = [] ∧
    outputSubscriberLockAcquisitions = [MutexId.outputMutex] ∧
    traceSinkLockAcquisitions = [MutexId.tracerMutex] := by
  refine ⟨rfl, rfl, rfl⟩

/-- C7 (confirmed): in a detailed render, an asset drained exactly once whose
verbose bucket is present — and whose pointer path does not interfere with
any other drained asset's — ends with the value at `"/" + asset` equal to the
concatenation of the distinct buffered lines in lexicographic order, and with
its bucket cleared to the empty list (the map key remains). -/
theorem C7_details_render (st : RPState) (asset cond : String)
    (h1 h2 : List (String × String)) (B : List String)
    (hhist : st.history = h1 ++ (asset, cond) :: h2)
    (hbuf : bufFind st.traceBuffer asset = some B)
    (honce : ∀ r ∈ h1 ++ h2, r.1 ≠ asset)
    (hnoint : ∀ r ∈ h1 ++ h2,
      isPathPref (ptrTokens r.1) (ptrTokens asset) = false ∧
      isPathPref (ptrTokens asset) (ptrTokens r.1) = false) :
    getPath (renderedTrace st DebugMode.OUTPUT_AND_TRACES_WITH_DETAILS) (ptrTokens asset) =
      some (.s (String.join (uniqueSorted B))) ∧
    bufFind ((getData st DebugMode.OUTPUT_AND_TRACES_WITH_DETAILS).2).traceBuffer asset =
      some [] ∧
    (uniqueSorted B).Pairwise (· < ·) ∧
    (∀ x, x ∈ uniqueSorted B ↔ x ∈ B) := by
  have hfold : st.history.foldl (renderStep DebugMode.OUTPUT_AND_TRACES_WITH_DETAILS)
      (JVal.o [], st.traceBuffer) =
      h2.foldl detailsStep
        (detailsStep (h1.foldl detailsStep (JVal.o [], st.traceBuffer)) (asset, cond)) := by
    rw [renderStep_details, hhist, List.foldl_append, List.foldl_cons]
  have hcl1 : ∀ r ∈ h1, r.1 ≠ asset ∧
      isPathPref (ptrTokens r.1) (ptrTokens asset) = false ∧
      isPathPref (ptrTokens asset) (ptrTokens r.1) = false := fun r hr =>
    ⟨honce r (List.mem_append.mpr (Or.inl hr)),
     (hnoint r (List.mem_append.mpr (Or.inl hr))).1,
     (hnoint r (List.mem_append.mpr (Or.inl hr))).2⟩
  have hcl2 : ∀ r ∈ h2, r.1 ≠ asset ∧
      isPathPref (ptrTokens r.1) (ptrTokens asset) = false ∧
      isPathPref (ptrTokens asset) (ptrTokens r.1) = false := fun r hr =>
    ⟨honce r (List.mem_append.mpr (Or.inr hr)),
     (hnoint r (List.mem_append.mpr (Or.inr hr))).1,
     (hnoint r (List.mem_append.mpr (Or.inr hr))).2⟩
  have hpres1 := fold_details_preserve asset h1 (JVal.o [], st.traceBuffer) hcl1
  have hb1 : bufFind (h1.foldl detailsStep (JVal.o [], st.traceBuffer)).2 asset = some B :=
    hpres1.2.trans hbuf
  have hstep1 : (detailsStep (h1.foldl detailsStep (JVal.o [], st.traceBuffer))
      (asset, cond)).1 =
      setPath (h1.foldl detailsStep (JVal.o [], st.traceBuffer)).1 (ptrTokens asset)
        (String.join (uniqueSorted B)) := by
    simp [detailsStep, hb1]
  have hstep2 : bufFind (detailsStep (h1.foldl detailsStep (JVal.o [], st.traceBuffer))
      (asset, cond)).2 asset = some [] := by
    have hs : (detailsStep (h1.foldl detailsStep (JVal.o [], st.traceBuffer))
        (asset, cond)).2 =
        bufSet (h1.foldl detailsStep (JVal.o [], st.traceBuffer)).2 asset [] := by
      simp [detailsStep, hb1]
    rw [hs]
    exact bufFind_bufSet_self _ _ _
  have hpres2 := fold_details_preserve asset h2
    (detailsStep (h1.foldl detailsStep (JVal.o [], st.traceBuffer)) (asset, cond)) hcl2
  refine ⟨?_, ?_, uniqueSorted_pairwise B, fun x => uniqueSorted_mem B x⟩
  · unfold renderedTrace
    rw [hfold, hpres2.1, hstep1]
    exact getPath_setPath_self _ _ _
  · rw [getData_traceBuffer, hfold]
    exact hpres2.2.trans hstep2

/-- Concrete state for the C7 witness: one condition record for asset `a`
and a bucket holding `z`, `y`, `z`. -/
def c7WitnessState : RPState :=
  ⟨"w7", true, "out", [("a", "c")], [("a", ["z", "y", "z"])], [], true, true⟩

/-- C7 witness: the detailed render on `c7WitnessState` concatenates the two
distinct lines in lexicographic order and clears the bucket. -/
theorem C7_details_render_witness :
    getPath (renderedTrace c7WitnessState DebugMode.OUTPUT_AND_TRACES_WITH_DETAILS)
      (ptrTokens "a") = some (.s (String.join (uniqueSorted ["z", "y", "z"]))) ∧
    bufFind ((getData c7WitnessState
      DebugMode.OUTPUT_AND_TRACES_WITH_DETAILS).2).traceBuffer "a" = some [] ∧
    (uniqueSorted ["z", "y", "z"]).Pairwise (· < ·) ∧
    (∀ x, x ∈ uniqueSorted ["z", "y", "z"] ↔ x ∈ ["z", "y", "z"]) :=
  C7_details_render c7WitnessState "a" "c" [] [] ["z", "y", "z"] rfl (by decide)
    (by simp) (by simp)

/-- C8 (confirmed): two successive detailed renders with no deliveries in
between return the same output string, and the second returns the trace JSON
of the empty object. -/
theorem C8_successive_renders (st : RPState) :
    (getData st DebugMode.OUTPUT_AND_TRACES_WITH_DETAILS).1.1 =
      (getData (getData st DebugMode.OUTPUT_AND_TRACES_WITH_DETAILS).2
        DebugMode.OUTPUT_AND_TRACES_WITH_DETAILS).1.1 ∧
    (getData (getData st DebugMode.OUTPUT_AND_TRACES_WITH_DETAILS).2
      DebugMode.OUTPUT_AND_TRACES_WITH_DETAILS).1.2 = "\x7b\x7d" := by
  constructor
  · rfl
  · show prettyStr (JVal.o []) = "\x7b\x7d"
    simp [prettyStr, prettyFields]

/-- C10 (confirmed): in a detailed render, an asset drained two or more times
whose bucket is present (and whose pointer path does not interfere with other
drained assets') ends with the empty string at `"/" + asset`: the first
occurrence consumes the bucket and every later occurrence overwrites the key
with the concatenation of the now-empty bucket. -/
theorem C10_duplicate_asset (st : RPState) (asset : String) (B : List String)
    (hbuf : bufFind st.traceBuffer asset = some B)
    (hcount : 2 ≤ (st.history.filter (fun r => r.1 == asset)).length)
    (hnoint : ∀ r ∈ st.history, r.1 ≠ asset →
      isPathPref (ptrTokens r.1) (ptrTokens asset) = false ∧
      isPathPref (ptrTokens asset) (ptrTokens r.1) = false) :
    getPath (renderedTrace st DebugMode.OUTPUT_AND_TRACES_WITH_DETAILS) (ptrTokens asset) =
      some (.s "") ∧
    bufFind ((getData st DebugMode.OUTPUT_AND_TRACES_WITH_DETAILS).2).traceBuffer asset =
      some [] := by
  have hfilne : st.history.filter (fun r => r.1 == asset) ≠ [] := by
    intro hnil; rw [hnil] at hcount; simp at hcount
  obtain ⟨x, l1, l2, hdec, hpx, hl1, hfil⟩ :=
    exists_first_occ (fun r => r.1 == asset) st.history hfilne
  have hxa : x.1 = asset := by simpa using hpx
  have hlen : (st.history.filter (fun r => r.1 == asset)).length =
      (l2.filter (fun r => r.1 == asset)).length + 1 := by
    rw [hfil, List.length_cons]
  have hcount2 : 1 ≤ (l2.filter (fun r => r.1 == asset)).length := by omega
  have hocc2 : ∃ r ∈ l2, r.1 = asset := by
    rcases hl2 : l2.filter (fun r => r.1 == asset) with _ | ⟨w, ws⟩
    · rw [hl2] at hcount2; simp at hcount2
    · have hw : w ∈ l2.filter (fun r => r.1 == asset) := by
        rw [hl2]; exact List.mem_cons_self _ _
      have hw' := List.mem_filter.mp hw
      exact ⟨w, hw'.1, by simpa using hw'.2⟩
  have hmem1 : ∀ r ∈ l1, r ∈ st.history := fun r hr => by
    rw [hdec]; exact List.mem_append.mpr (Or.inl hr)
  have hmem2 : ∀ r ∈ l2, r ∈ st.history := fun r hr => by
    rw [hdec]; exact List.mem_append.mpr (Or.inr (List.mem_cons_of_mem x hr))
  have hcl1 : ∀ r ∈ l1, r.1 ≠ asset ∧
      isPathPref (ptrTokens r.1) (ptrTokens asset) = false ∧
      isPathPref (ptrTokens asset) (ptrTokens r.1) = false := by
    intro r hr
    have hne : r.1 ≠ asset := by simpa using hl1 r hr
    exact ⟨hne, (hnoint r (hmem1 r hr) hne).1, (hnoint r (hmem1 r hr) hne).2⟩
  have hfold : st.history.foldl (renderStep DebugMode.OUTPUT_AND_TRACES_WITH_DETAILS)
      (JVal.o [], st.traceBuffer) =
      l2.foldl detailsStep
        (detailsStep (l1.foldl detailsStep (JVal.o [], st.traceBuffer)) x) := by
    rw [renderStep_details, hdec, List.foldl_append, List.foldl_cons]
  have hpres1 := fold_details_preserve asset l1 (JVal.o [], st.traceBuffer) hcl1
  have hb1 : bufFind (l1.foldl detailsStep (JVal.o [], st.traceBuffer)).2 asset = some B :=
    hpres1.2.trans hbuf
  have hstep2 : bufFind (detailsStep (l1.foldl detailsStep (JVal.o [], st.traceBuffer)) x).2
      asset = some [] := by
    have hx1 : bufFind (l1.foldl detailsStep (JVal.o [], st.traceBuffer)).2 x.1 = some B := by
      rw [hxa]; exact hb1
    have hs : (detailsStep (l1.foldl detailsStep (JVal.o [], st.traceBuffer)) x).2 =
        bufSet (l1.foldl detailsStep (JVal.o [], st.traceBuffer)).2 x.1 [] := by
      simp [detailsStep, hx1]
    rw [hs, hxa]
    exact bufFind_bufSet_self _ _ _
  have hempt := fold_details_empties asset l2
    (detailsStep (l1.foldl detailsStep (JVal.o [], st.traceBuffer)) x)
    hocc2 hstep2 (fun r hr hne => hnoint r (hmem2 r hr) hne)
  constructor
  · unfold renderedTrace
    rw [hfold]
    exact hempt.1
  · rw [getData_traceBuffer, hfold]
    exact hempt.2

/-- Concrete state for the C10 witness: two condition records for asset `a`
and a bucket holding one line. -/
def c10WitnessState : RPState :=
  ⟨"w10", true, "", [("a", "c1"), ("a", "c2")], [("a", ["x"])], [], true, true⟩

/-- C10 witness: the detailed render on `c10WitnessState` leaves the empty
string at the duplicated asset's key. -/
theorem C10_duplicate_asset_witness :
    getPath (renderedTrace c10WitnessState DebugMode.OUTPUT_AND_TRACES_WITH_DETAILS)
      (ptrTokens "a") = some (.s "") ∧
    bufFind ((getData c10WitnessState
      DebugMode.OUTPUT_AND_TRACES_WITH_DETAILS).2).traceBuffer "a" = some [] :=
  C10_duplicate_asset c10WitnessState "a" ["x"] (by decide) (by decide) (by decide)

end RuntimePolicyVerif
